import Mathlib

/-!
Verification development for the Marketplace-Agent backend.

The development shallowly embeds the parts of the code base that the
checked properties talk about:

* `utils/session_manager.py` — the Redis-backed session store
  (`create_session`, `get_session`, `get_chat_history`,
  `update_chat_history`, `clear_chat_history`, `delete_session`,
  `clear_session`).  Redis is modelled as an association list from key to
  value-with-expiry, together with two failure flags (`rfail`, `wfail`)
  standing for exceptions raised by `redis.get` and `redis.set`/`delete`.
* `agents/tools/api_caller.py` — the HTTP executor (`APICaller.call`,
  `_prepare_auth_headers`) and the natural-language request parser
  (`_parse_natural_language_request`, `call_from_natural_language`).
  The regular expressions of the parser are embedded as executable
  matching functions with Python `re.search` semantics (leftmost match,
  ordered alternation, greedy quantifiers with backtracking).
  `json.loads` is treated as an external collaborator and is passed in
  as a success predicate; character classes use their ASCII meaning.
* `api/routes.py` and `api/models.py` — the `/chat` and `/api/call`
  endpoints and their pydantic models.
* `agents/main_agent.py` — `MultiAgent.arun`, with the LangChain agent
  executor abstracted as a function parameter.
-/

/-! ## Python-flavoured character and list utilities -/

/-- Python whitespace class for `str.strip` and the regex class `\s`
(ASCII part). -/
def pyIsSpace (c : Char) : Bool :=
  c = ' ' || c = '\t' || c = '\n' || c = '\r' || c = '\x0b' || c = '\x0c'

/-- Case-insensitive character comparison, as used by `re.IGNORECASE`. -/
def ciEqChar (a b : Char) : Bool := a.toLower = b.toLower

/-- Case-insensitive "starts with" on character lists. -/
def startsWithCI : List Char → List Char → Bool
  | [], _ => true
  | _ :: _, [] => false
  | p :: ps, c :: cs => ciEqChar p c && startsWithCI ps cs

/-- Case-sensitive `str.startswith`. -/
def startsWithCS : List Char → List Char → Bool
  | [], _ => true
  | _ :: _, [] => false
  | p :: ps, c :: cs => (p = c) && startsWithCS ps cs

/-- Length of the maximal leading run of characters satisfying `f`
(the greedy extent of a `[...]+` / `[...]*` quantifier). -/
def runLen (f : Char → Bool) : List Char → Nat
  | [] => 0
  | c :: cs => if f c then runLen f cs + 1 else 0

/-- Python `str.strip()` (restricted to the ASCII whitespace class). -/
def pyStrip (s : List Char) : List Char :=
  ((s.dropWhile pyIsSpace).reverse.dropWhile pyIsSpace).reverse

/-- Python `str.upper()` (ASCII). -/
def pyUpper (s : List Char) : List Char := s.map Char.toUpper

/-- Python `str.lower()` (ASCII). -/
def pyLower (s : List Char) : List Char := s.map Char.toLower

/-- Python list slice `l[-n:]` for `n > 0`: the last `n` elements
(all of them when the list is shorter than `n`). -/
def lastN (n : Nat) (l : List α) : List α := l.drop (l.length - n)

/-- Insert-or-overwrite for a Python `dict` held as an association list
in insertion order: an existing key keeps its position and gets the new
value, a new key is appended. -/
def dictInsert [DecidableEq κ] (k : κ) (v : ν) : List (κ × ν) → List (κ × ν)
  | [] => [(k, v)]
  | (k₀, v₀) :: rest =>
      if k₀ = k then (k₀, v) :: rest else (k₀, v₀) :: dictInsert k v rest

/-- `dict(pairs)`: build a dict from a pair list, later duplicates of a
key overwriting earlier ones. -/
def dictOf [DecidableEq κ] (ps : List (κ × ν)) : List (κ × ν) :=
  ps.foldl (fun d p => dictInsert p.1 p.2 d) []

/-- `d.update(ps)` on a Python dict. -/
def dictUpdate [DecidableEq κ] (d : List (κ × ν)) (ps : List (κ × ν)) : List (κ × ν) :=
  ps.foldl (fun d p => dictInsert p.1 p.2 d) d

/-- `d.get(k, default)` on a Python dict. -/
def dictGetD [DecidableEq κ] (d : List (κ × ν)) (k : κ) (dflt : ν) : ν :=
  match d.find? (fun p => p.1 = k) with
  | some p => p.2
  | none => dflt

/-! ### Facts about `lastN` (Python `l[-50:]`) -/

theorem lastN_eq_reverse_take (n : Nat) (l : List α) :
    lastN n l = (l.reverse.take n).reverse := by
  unfold lastN
  rw [show (l.reverse.take n).reverse = l.reverse.reverse.drop (l.reverse.length - n) from
        List.reverse_take,
      List.reverse_reverse, List.length_reverse]

theorem take_append_take (n : Nat) (u v : List α) :
    (u ++ v.take n).take n = (u ++ v).take n := by
  rw [List.take_append_eq_append_take, List.take_append_eq_append_take, List.take_take,
      min_eq_left (Nat.sub_le n u.length)]

/-- Truncating to the last `n` after appending to an already truncated
list is the same as truncating the full concatenation: the invariant
behind the 50-message history bound. -/
theorem lastN_append_lastN (n : Nat) (xs ys : List α) :
    lastN n (lastN n xs ++ ys) = lastN n (xs ++ ys) := by
  rw [lastN_eq_reverse_take n xs,
      lastN_eq_reverse_take n ((xs.reverse.take n).reverse ++ ys),
      lastN_eq_reverse_take n (xs ++ ys),
      List.reverse_append, List.reverse_reverse, take_append_take, ← List.reverse_append]

theorem lastN_length_le (n : Nat) (l : List α) : (lastN n l).length ≤ n := by
  unfold lastN
  rw [List.length_drop]
  omega

/-! ## Data model (`api/models.py`) -/

/-- `MessageRole` from `api/models.py`. -/
inductive MessageRole
  | user
  | assistant
  | system
  | tool
deriving DecidableEq, Repr

/-- One tool-invocation record as produced by `MultiAgent.arun`
(dict with keys `tool_name`, `tool_input`, `result`). -/
structure ToolCallRec where
  tool_name : String
  tool_input : String
  result : String
deriving DecidableEq, Repr

/-- `Message` from `api/models.py`. -/
structure Message where
  role : MessageRole
  content : String
  name : Option String := none
  tool_calls : Option (List ToolCallRec) := none
  tool_call_id : Option String := none
deriving DecidableEq, Repr

/-! ## Session store (`utils/session_manager.py`)

Redis is modelled as an association list from session key to a value
carrying its absolute expiry instant (`ex=` TTL): a key whose expiry is
not in the future is indistinguishable from an absent key, which is how
Redis expiry behaves.  `created_at` and `updated_at` timestamps carry no
information used by any checked property and are omitted from the
session value. -/

/-- The JSON session value: `chat_history` plus the free-form `data`
mapping. -/
structure SessionData where
  chat_history : List Message
  data : List (String × String)
deriving DecidableEq, Repr

/-- A stored value together with its absolute expiry time. -/
structure StoreEntry where
  expireAt : Nat
  session : SessionData
deriving DecidableEq, Repr

abbrev Store := List (String × StoreEntry)

/-- Failure behaviour of the Redis connection: `rfail` makes `redis.get`
raise, `wfail` makes `redis.set` and `redis.delete` raise. -/
structure RedisConn where
  rfail : Bool
  wfail : Bool
deriving DecidableEq, Repr

def storeFind : Store → String → Option StoreEntry
  | [], _ => none
  | (k₀, e₀) :: rest, k => if k₀ = k then some e₀ else storeFind rest k

def storeSet : Store → String → StoreEntry → Store
  | [], k, e => [(k, e)]
  | (k₀, e₀) :: rest, k, e =>
      if k₀ = k then (k, e) :: rest else (k₀, e₀) :: storeSet rest k e

/-- `redis.delete(key)`: the updated store and whether a key was
removed (`bool(count)`). -/
def storeDel (st : Store) (k : String) : Store × Bool :=
  (st.filter (fun p => ¬(p.1 = k)), st.any (fun p => p.1 = k))

/-- `redis.get(f"session:{id}")`: raises when the connection fails; an
expired key reads as absent. -/
def redisGet (c : RedisConn) (now : Nat) (st : Store) (k : String) :
    Except Unit (Option SessionData) :=
  if c.rfail then .error () else
    .ok (match storeFind st k with
         | some e => if now < e.expireAt then some e.session else none
         | none => none)

/-- `redis.set(key, value, ex=ttl)`. -/
def redisSet (c : RedisConn) (now ttl : Nat) (st : Store) (k : String)
    (s : SessionData) : Except Unit Store :=
  if c.wfail then .error () else .ok (storeSet st k ⟨now + ttl, s⟩)

/-- `redis.delete(key)` as an effect. -/
def redisDelete (c : RedisConn) (st : Store) (k : String) :
    Except Unit (Store × Bool) :=
  if c.wfail then .error () else .ok (storeDel st k)

/-- `settings.SESSION_EXPIRE_SECONDS` (`utils/config.py`). -/
def SESSION_EXPIRE_SECONDS : Nat := 86400

/-- `SessionManager.create_session`: the generated UUID is supplied as
the parameter `sid`; a failed write is logged and the id is still
returned. -/
def create_session (c : RedisConn) (now : Nat) (st : Store) (sid : String)
    (initial_data : Option (List (String × String))) : String × Store :=
  let session : SessionData := { chat_history := [], data := initial_data.getD [] }
  match redisSet c now SESSION_EXPIRE_SECONDS st sid session with
  | .ok st' => (sid, st')
  | .error _ => (sid, st)

/-- `SessionManager.get_session`: empty id reads as `None`; on a hit the
entry is re-written with a refreshed TTL before being returned; any
exception inside the `try` block (including one from the refreshing
`redis.set`) is caught and `None` is returned. -/
def get_session (c : RedisConn) (now : Nat) (st : Store) (sid : String) :
    Option SessionData × Store :=
  if sid = "" then (none, st)
  else
    match redisGet c now st sid with
    | .error _ => (none, st)
    | .ok none => (none, st)
    | .ok (some s) =>
        match redisSet c now SESSION_EXPIRE_SECONDS st sid s with
        | .ok st' => (some s, st')
        | .error _ => (none, st)

/-- `SessionManager.get_chat_history`. -/
def get_chat_history (c : RedisConn) (now : Nat) (st : Store) (sid : String) :
    List Message × Store :=
  match get_session c now st sid with
  | (some s, st') => (s.chat_history, st')
  | (none, st') => ([], st')

/-- `SessionManager.update_chat_history`: rejects an empty id or an
empty message list, otherwise extends the (possibly freshly created)
history, truncates to the most recent 50 entries and persists; a failed
write is logged and reported as `False`. -/
def update_chat_history (c : RedisConn) (now : Nat) (st : Store) (sid : String)
    (messages : List Message) : Bool × Store :=
  if sid = "" ∨ messages = [] then (false, st)
  else
    let res := get_session c now st sid
    let session : SessionData := res.1.getD { chat_history := [], data := [] }
    let newHist := lastN 50 (session.chat_history ++ messages)
    match redisSet c now SESSION_EXPIRE_SECONDS res.2 sid
        { session with chat_history := newHist } with
    | .ok st₂ => (true, st₂)
    | .error _ => (false, res.2)

/-- `SessionManager.clear_chat_history`: delegates to
`update_chat_history` with an empty message list. -/
def clear_chat_history (c : RedisConn) (now : Nat) (st : Store) (sid : String) :
    Bool × Store :=
  update_chat_history c now st sid []

/-- `SessionManager.delete_session`. -/
def delete_session (c : RedisConn) (st : Store) (sid : String) : Bool × Store :=
  if sid = "" then (false, st)
  else
    match redisDelete c st sid with
    | .ok r => (r.2, r.1)
    | .error _ => (false, st)

/-- `SessionManager.clear_session` (alias for `delete_session`). -/
def clear_session (c : RedisConn) (st : Store) (sid : String) : Bool × Store :=
  delete_session c st sid

/-- A whole sequence of `update_chat_history` calls, threading the
store. -/
def foldUpdates (c : RedisConn) (now : Nat) (sid : String) (st : Store)
    (batches : List (List Message)) : Store :=
  batches.foldl (fun st b => (update_chat_history c now st sid b).2) st

/-! ## Chat endpoint (`api/routes.py`) -/

/-- The value returned by `MultiAgent.arun` (and consumed by the `/chat`
route). -/
structure AgentResult where
  message : Message
  tool_calls : Option (List ToolCallRec)
deriving DecidableEq, Repr

/-- `ChatRequest` from `api/models.py` (fields not read by the route
body are omitted). -/
structure ChatRequest where
  messages : List Message
  session_id : Option String := none
deriving DecidableEq, Repr

/-- `ChatResponse` from `api/models.py`. -/
structure ChatResponse where
  message : Message
  session_id : String
  tool_calls : Option (List ToolCallRec)
deriving DecidableEq, Repr

/-- The `/chat` route handler.  The agent is abstracted as a total
function (`MultiAgent.arun` catches every exception itself); `freshSid`
is the UUID `create_session` would generate.  `request.session_id or
session_manager.create_session()` uses Python truthiness, so an empty
string also triggers creation.  The route appends the agent reply to
the fetched-plus-new history and hands the whole list to
`update_chat_history`.  The `except` branch returning HTTP 500 is
unreachable because every component is total. -/
def chatRoute (agent : List Message → AgentResult) (c : RedisConn) (now : Nat)
    (st : Store) (freshSid : String) (req : ChatRequest) :
    Except String ChatResponse × Store :=
  let idSt :=
    match req.session_id with
    | some s => if s = "" then create_session c now st freshSid none else (s, st)
    | none => create_session c now st freshSid none
  let histSt := get_chat_history c now idSt.2 idSt.1
  let chat_history := histSt.1 ++ req.messages
  let response := agent chat_history
  let chat_history := chat_history ++ [response.message]
  let updSt := update_chat_history c now histSt.2 idSt.1 chat_history
  (.ok { message := response.message, session_id := idSt.1,
         tool_calls := response.tool_calls }, updSt.2)

/-! ## Store lemmas -/

theorem storeFind_storeSet_self (st : Store) (k : String) (e : StoreEntry) :
    storeFind (storeSet st k e) k = some e := by
  induction st with
  | nil => simp [storeSet, storeFind]
  | cons hd tl ih =>
      obtain ⟨k₀, e₀⟩ := hd
      by_cases h : k₀ = k
      · simp [storeSet, storeFind, h]
      · simp [storeSet, storeFind, h, ih]

theorem storeFind_storeDel_self (st : Store) (k : String) :
    storeFind (storeDel st k).1 k = none := by
  induction st with
  | nil => simp [storeDel, storeFind]
  | cons hd tl ih =>
      obtain ⟨k₀, e₀⟩ := hd
      by_cases h : k₀ = k
      · simpa [storeDel, storeFind, h] using ih
      · simpa [storeDel, storeFind, h] using ih

/-- With a healthy connection and a live entry for `sid`, one
`update_chat_history` call with a non-empty batch replaces the stored
history by the truncation of the extended history (the `data` mapping
and the refreshed TTL are preserved). -/
theorem update_chat_history_step (now : Nat) (st : Store) (sid : String)
    (b : List Message) (hist : List Message) (d : List (String × String))
    (hsid : sid ≠ "") (hb : b ≠ [])
    (hfind : storeFind st sid = some ⟨now + SESSION_EXPIRE_SECONDS, ⟨hist, d⟩⟩) :
    update_chat_history ⟨false, false⟩ now st sid b =
      (true,
       storeSet (storeSet st sid ⟨now + SESSION_EXPIRE_SECONDS, ⟨hist, d⟩⟩) sid
         ⟨now + SESSION_EXPIRE_SECONDS, ⟨lastN 50 (hist ++ b), d⟩⟩) := by
  have hlive : now < now + SESSION_EXPIRE_SECONDS := by
    unfold SESSION_EXPIRE_SECONDS
    omega
  simp [update_chat_history, get_session, redisGet, redisSet, hsid, hb, hfind, hlive]

theorem foldUpdates_invariant (now : Nat) (sid : String) (d : List (String × String))
    (hsid : sid ≠ "") (batches : List (List Message)) :
    ∀ (st : Store) (acc : List Message),
      (∀ b ∈ batches, b ≠ []) →
      storeFind st sid = some ⟨now + SESSION_EXPIRE_SECONDS, ⟨lastN 50 acc, d⟩⟩ →
      storeFind (foldUpdates ⟨false, false⟩ now sid st batches) sid =
        some ⟨now + SESSION_EXPIRE_SECONDS, ⟨lastN 50 (acc ++ batches.flatten), d⟩⟩ := by
  induction batches with
  | nil =>
      intro st acc _ hfind
      simpa [foldUpdates] using hfind
  | cons b rest ih =>
      intro st acc hne hfind
      have hb : b ≠ [] := hne b (List.mem_cons_self _ _)
      have hstep := update_chat_history_step now st sid b (lastN 50 acc) d hsid hb hfind
      have hfold : foldUpdates ⟨false, false⟩ now sid st (b :: rest) =
          foldUpdates ⟨false, false⟩ now sid
            (update_chat_history ⟨false, false⟩ now st sid b).2 rest := rfl
      have hfind' := storeFind_storeSet_self
        (storeSet st sid ⟨now + SESSION_EXPIRE_SECONDS, ⟨lastN 50 acc, d⟩⟩) sid
        ⟨now + SESSION_EXPIRE_SECONDS, ⟨lastN 50 (lastN 50 acc ++ b), d⟩⟩
      rw [lastN_append_lastN] at hfind'
      rw [hfold, hstep, lastN_append_lastN,
          show ((b :: rest) : List (List Message)).flatten = b ++ rest.flatten from rfl,
          ← List.append_assoc]
      exact ih _ (acc ++ b) (fun x hx => hne x (List.mem_cons_of_mem _ hx)) hfind'

/-- Claim C1: starting from a fresh session, for every sequence of
`update_chat_history` calls with non-empty message batches and a
healthy backing store, the stored chat history equals the most recently
appended 50 messages in append order (so in particular its length never
exceeds 50).  Since the sequence of batches is universally quantified,
the statement holds after each call of any longer sequence. -/
theorem C1_update_chat_history_bounded (sid : String) (now : Nat) (st : Store)
    (init : Option (List (String × String))) (batches : List (List Message))
    (hsid : sid ≠ "") (hne : ∀ b ∈ batches, b ≠ []) :
    ∃ e, storeFind (foldUpdates ⟨false, false⟩ now sid
            (create_session ⟨false, false⟩ now st sid init).2 batches) sid = some e ∧
      e.session.chat_history = lastN 50 batches.flatten ∧
      e.session.chat_history.length ≤ 50 := by
  have h0 : storeFind (create_session ⟨false, false⟩ now st sid init).2 sid =
      some ⟨now + SESSION_EXPIRE_SECONDS, ⟨lastN 50 [], init.getD []⟩⟩ := by
    simp [create_session, redisSet, storeFind_storeSet_self, lastN]
  have hres := foldUpdates_invariant now sid (init.getD []) hsid batches _ [] hne h0
  rw [List.nil_append] at hres
  exact ⟨_, hres, rfl, lastN_length_le 50 _⟩

theorem C1_witness :
    ∃ e, storeFind (foldUpdates ⟨false, false⟩ 0 "s"
            (create_session ⟨false, false⟩ 0 [] "s" none).2
            [[{ role := .user, content := "hi" }], [{ role := .assistant, content := "yo" }]]) "s" = some e ∧
      e.session.chat_history =
        lastN 50 ([[{ role := .user, content := "hi" }],
                   [{ role := .assistant, content := "yo" }]] : List (List Message)).flatten ∧
      e.session.chat_history.length ≤ 50 :=
  C1_update_chat_history_bounded "s" 0 [] none _ (by decide) (by decide)

/-- Claim C4: `clear_chat_history` delegates to `update_chat_history`
with an empty message list, which rejects it before touching the store,
so it returns `False` and leaves the store untouched; only
`delete_session` (and its alias `clear_session`) removes session
state. -/
theorem C4_clear_chat_history_noop :
    (∀ (c : RedisConn) (now : Nat) (st : Store) (sid : String),
        clear_chat_history c now st sid = (false, st) ∧
        clear_chat_history c now st sid = update_chat_history c now st sid []) ∧
    (∀ (c : RedisConn) (st : Store) (sid : String),
        clear_session c st sid = delete_session c st sid) ∧
    (∀ (st : Store) (sid : String), sid ≠ "" →
        storeFind (delete_session ⟨false, false⟩ st sid).2 sid = none) := by
  refine ⟨fun c now st sid => ⟨?_, rfl⟩, fun c st sid => rfl, fun st sid hsid => ?_⟩
  · simp [clear_chat_history, update_chat_history]
  · simp [delete_session, redisDelete, hsid, storeFind_storeDel_self]

theorem C4_witness :
    clear_chat_history ⟨false, false⟩ 0 [("s", ⟨5, ⟨[], []⟩⟩)] "s" =
      (false, [("s", ⟨5, ⟨[], []⟩⟩)]) ∧
    storeFind (delete_session ⟨false, false⟩ [("s", ⟨5, ⟨[], []⟩⟩)] "s").2 "s" = none :=
  ⟨(C4_clear_chat_history_noop.1 ⟨false, false⟩ 0 [("s", ⟨5, ⟨[], []⟩⟩)] "s").1,
   C4_clear_chat_history_noop.2.2 [("s", ⟨5, ⟨[], []⟩⟩)] "s" (by decide)⟩

/-- Claim C6: `get_chat_history` returns the empty list (and leaves the
store unchanged) whenever the session is absent, expired, or the
backing store read raises; being a total function it never raises. -/
theorem C6_get_chat_history_degrades (c : RedisConn) (now : Nat) (st : Store) (sid : String)
    (h : storeFind st sid = none ∨
         (∃ e, storeFind st sid = some e ∧ e.expireAt ≤ now) ∨
         c.rfail = true) :
    get_chat_history c now st sid = ([], st) := by
  by_cases hsid : sid = ""
  · simp [get_chat_history, get_session, hsid]
  · rcases h with h | ⟨e, he, hexp⟩ | h
    · cases hr : c.rfail
      · simp [get_chat_history, get_session, redisGet, hsid, hr, h]
      · simp [get_chat_history, get_session, redisGet, hsid, hr]
    · cases hr : c.rfail
      · have hnl : ¬ (now < e.expireAt) := by omega
        simp [get_chat_history, get_session, redisGet, hsid, hr, he, hnl]
      · simp [get_chat_history, get_session, redisGet, hsid, hr]
    · simp [get_chat_history, get_session, redisGet, hsid, h]

theorem C6_witness :
    get_chat_history ⟨false, false⟩ 10
      [("s", ⟨3, ⟨[{ role := .user, content := "old" }], []⟩⟩)] "s" =
      ([], [("s", ⟨3, ⟨[{ role := .user, content := "old" }], []⟩⟩)]) :=
  C6_get_chat_history_degrades _ _ _ _
    (Or.inr (Or.inl ⟨⟨3, ⟨[{ role := .user, content := "old" }], []⟩⟩, rfl, by decide⟩))

theorem get_session_wfail (now : Nat) (st : Store) (sid : String) :
    get_session ⟨false, true⟩ now st sid = (none, st) := by
  unfold get_session redisGet redisSet
  by_cases hsid : sid = ""
  · simp [hsid]
  · simp only [hsid, if_false, if_neg, if_true]
    cases hfind : storeFind st sid with
    | none => simp [hfind]
    | some e => by_cases hl : now < e.expireAt <;> simp [hfind, hl]

theorem update_chat_history_wfail (now : Nat) (st : Store) (sid : String)
    (msgs : List Message) (hne : msgs ≠ []) :
    update_chat_history ⟨false, true⟩ now st sid msgs = (false, st) := by
  by_cases hsid : sid = ""
  · simp [update_chat_history, hsid]
  · simp [update_chat_history, hsid, hne, get_session_wfail, redisSet]

theorem create_session_wfail (now : Nat) (st : Store) (sid : String)
    (init : Option (List (String × String))) :
    create_session ⟨false, true⟩ now st sid init = (sid, st) := by
  simp [create_session, redisSet]

theorem get_chat_history_wfail (now : Nat) (st : Store) (sid : String) :
    get_chat_history ⟨false, true⟩ now st sid = ([], st) := by
  simp [get_chat_history, get_session_wfail]

/-- Claim C5: when the backing store raises on every write,
`update_chat_history` with a non-empty batch returns `False` without
propagating an exception and leaves the store unchanged, and the `/chat`
route still answers with the agent reply. -/
theorem C5_store_write_failure (now : Nat) :
    (∀ (st : Store) (sid : String) (msgs : List Message), msgs ≠ [] →
        update_chat_history ⟨false, true⟩ now st sid msgs = (false, st)) ∧
    (∀ (agent : List Message → AgentResult) (st : Store) (freshSid : String)
        (req : ChatRequest),
        ∃ sid, chatRoute agent ⟨false, true⟩ now st freshSid req =
          (.ok { message := (agent req.messages).message, session_id := sid,
                 tool_calls := (agent req.messages).tool_calls }, st)) := by
  refine ⟨fun st sid msgs hne => update_chat_history_wfail now st sid msgs hne,
          fun agent st freshSid req => ?_⟩
  have hupd : ∀ (sid : String) (m : Message),
      update_chat_history ⟨false, true⟩ now st sid (req.messages ++ [m]) = (false, st) :=
    fun sid m => update_chat_history_wfail now st sid _ (by simp)
  cases hreq : req.session_id with
  | none =>
      exact ⟨freshSid, by
        simp [chatRoute, hreq, create_session_wfail, get_chat_history_wfail, hupd]⟩
  | some s =>
      by_cases hs : s = ""
      · exact ⟨freshSid, by
          simp [chatRoute, hreq, hs, create_session_wfail, get_chat_history_wfail, hupd]⟩
      · exact ⟨s, by
          simp [chatRoute, hreq, hs, get_chat_history_wfail, hupd]⟩

theorem C5_witness :
    update_chat_history ⟨false, true⟩ 0 [] "s" [{ role := .user, content := "m" }] = (false, []) ∧
    ∃ sid, chatRoute
        (fun _ => { message := { role := .assistant, content := "r" }, tool_calls := none })
        ⟨false, true⟩ 0 [] "f" { messages := [{ role := .user, content := "m" }] } =
      (.ok { message := { role := .assistant, content := "r" }, session_id := sid,
             tool_calls := none }, []) :=
  ⟨(C5_store_write_failure 0).1 [] "s" _ (by decide),
   (C5_store_write_failure 0).2
     (fun _ => { message := { role := .assistant, content := "r" }, tool_calls := none })
     [] "f" { messages := [{ role := .user, content := "m" }] }⟩

/-! ## Regular-expression engine for the parser
(`APICaller._parse_natural_language_request`)

The auth and form-data patterns of the parser are embedded through a
small backtracking matcher with Python `re` semantics: alternatives and
the optional literal are tried in order (greedy first), a `[...]+` class
consumes its maximal run first and gives characters back one at a time
on failure of the rest of the pattern, and a search scans start
positions left to right. -/

/-- A token of a compiled pattern. -/
inductive Tok
  | lit (p : List Char)
  | opt (p : List Char)
  | cls (f : Char → Bool)
  | grp (f : Char → Bool)

/-- Candidate run lengths for a greedy `[...]+`: longest first, at
least one. -/
def ksDesc (n : Nat) : List Nat := (List.range n).map (fun i => n - i)

/-- Match a token list at the head of the input; returns the captures
of `grp` tokens in order and the remaining input. -/
def matchToks : List Tok → List Char → Option (List (List Char) × List Char)
  | [], s => some ([], s)
  | .lit p :: ts, s =>
      if startsWithCI p s then matchToks ts (s.drop p.length) else none
  | .opt p :: ts, s =>
      if startsWithCI p s then
        match matchToks ts (s.drop p.length) with
        | some r => some r
        | none => matchToks ts s
      else matchToks ts s
  | .cls f :: ts, s =>
      (ksDesc (runLen f s)).findSome? (fun k => matchToks ts (s.drop k))
  | .grp f :: ts, s =>
      (ksDesc (runLen f s)).findSome? (fun k =>
        (matchToks ts (s.drop k)).map (fun r => (s.take k :: r.1, r.2)))

/-- Try a list of alternatives (in order) at the head of the input;
returns captures and total match length. -/
def tryAlts (alts : List (List Tok)) (s : List Char) :
    Option (List (List Char) × Nat) :=
  (alts.findSome? (fun a => matchToks a s)).map (fun r => (r.1, s.length - r.2.length))

/-- `re.search`: leftmost match wins; returns (start, captures, match
length). -/
def reSearch (alts : List (List Tok)) : List Char → Option (Nat × List (List Char) × Nat)
  | [] => (tryAlts alts []).map (fun r => (0, r.1, r.2))
  | c :: cs =>
      match tryAlts alts (c :: cs) with
      | some r => some (0, r.1, r.2)
      | none => (reSearch alts cs).map (fun r => (r.1 + 1, r.2.1, r.2.2))

/-- `re.findall`: non-overlapping matches left to right, scanning on
from the end of each match.  The fuel argument (instantiated with
`s.length + 1`) only serves termination: every pattern passed to it
matches at least one character. -/
def reFindAll (alts : List (List Tok)) : Nat → List Char → List (List (List Char))
  | 0, _ => []
  | fuel + 1, s =>
      match reSearch alts s with
      | none => []
      | some (i, caps, len) => caps :: reFindAll alts fuel (s.drop (i + len))

/-! ### The concrete patterns -/

/-- Regex class `[\s:]`. -/
def wsOrColon (c : Char) : Bool := pyIsSpace c || c = ':'

/-- Regex class `\w` (ASCII part). -/
def isWordChar (c : Char) : Bool := c.isAlphanum || c = '_'

/-- Regex class `[\w-]`. -/
def wordOrDash (c : Char) : Bool := isWordChar c || c = '-'

/-- Regex class `[^\s,;]`. -/
def notSepChar (c : Char) : Bool := !(pyIsSpace c || c = ',' || c = ';')

/-- Regex class `[\s,;]`. -/
def sepChar (c : Char) : Bool := pyIsSpace c || c = ',' || c = ';'

/-- `(?:api[_-]?key|token)[\s:]+([\w-]+)` (IGNORECASE), with the greedy
optional `[_-]?` expanded into ordered literal alternatives. -/
def apiKeyAlts : List (List Tok) :=
  [ [.lit "api_key".data, .cls wsOrColon, .grp wordOrDash],
    [.lit "api-key".data, .cls wsOrColon, .grp wordOrDash],
    [.lit "apikey".data, .cls wsOrColon, .grp wordOrDash],
    [.lit "token".data, .cls wsOrColon, .grp wordOrDash] ]

/-- The API-key / token pattern search; returns group 1. -/
def apiKeySearch (s : List Char) : Option (List Char) :=
  (reSearch apiKeyAlts s).map (fun r => r.2.1.headD [])

/-- `user(?:name)?[\s:]+([^\s,;]+)[\s,;]+pass(?:word)?[\s:]+([^\s,;]+)`
(IGNORECASE). -/
def basicAuthAlts : List (List Tok) :=
  [ [.lit "user".data, .opt "name".data, .cls wsOrColon, .grp notSepChar,
     .cls sepChar, .lit "pass".data, .opt "word".data, .cls wsOrColon,
     .grp notSepChar] ]

/-- The basic-auth pattern search; returns (group 1, group 2) =
(username, password). -/
def basicAuthSearch (s : List Char) : Option (List Char × List Char) :=
  (reSearch basicAuthAlts s).map (fun r => (r.2.1.headD [], (r.2.1.drop 1).headD []))

/-- `(\w+)=([^\s,;]+)` for `re.findall`. -/
def formAlts : List (List Tok) :=
  [ [.grp isWordChar, .lit "=".data, .grp notSepChar] ]

/-- `re.findall(r'(\w+)=([^\s,;]+)', text)`. -/
def formFindAll (s : List Char) : List (List Char × List Char) :=
  (reFindAll formAlts (s.length + 1) s).map
    (fun caps => (caps.headD [], (caps.drop 1).headD []))

/-! ### URL and method extraction

The URL pattern is the one place where the checked properties need
universal reasoning about the matcher, so it is embedded directly: the
regex `(https?://[^\s\?&#]+|www\.[^\s\?&#]+)` (IGNORECASE) is compiled
by hand, the greedy optional `s?` becoming ordered cases. -/

/-- The terminator class `[\s\?&#]` of a URL token. -/
def urlStopChar (c : Char) : Bool := pyIsSpace c || c = '?' || c = '&' || c = '#'

/-- Characters allowed inside a URL token (`[^\s\?&#]`). -/
def urlTokChar (c : Char) : Bool := !urlStopChar c

/-- One attempt of the URL pattern anchored at the head of `s`; returns
the match length. -/
def urlMatchLen (s : List Char) : Option Nat :=
  if startsWithCI "https://".data s ∧ 0 < runLen urlTokChar (s.drop 8) then
    some (8 + runLen urlTokChar (s.drop 8))
  else if startsWithCI "http://".data s ∧ 0 < runLen urlTokChar (s.drop 7) then
    some (7 + runLen urlTokChar (s.drop 7))
  else if startsWithCI "www.".data s ∧ 0 < runLen urlTokChar (s.drop 4) then
    some (4 + runLen urlTokChar (s.drop 4))
  else none

/-- `re.search` for the URL pattern: (start, match length). -/
def urlSearch : List Char → Option (Nat × Nat)
  | [] => (urlMatchLen []).map (fun n => (0, n))
  | c :: cs =>
      match urlMatchLen (c :: cs) with
      | some n => some (0, n)
      | none => (urlSearch cs).map (fun r => (r.1 + 1, r.2))

/-- The seven method keywords of
`^(GET|POST|PUT|DELETE|PATCH|HEAD|OPTIONS)\s+`. -/
def methodWords : List (List Char) :=
  ["GET".data, "POST".data, "PUT".data, "DELETE".data, "PATCH".data,
   "HEAD".data, "OPTIONS".data]

/-- The anchored method pattern (IGNORECASE, greedy `\s+`): returns the
canonical upper-case keyword (`group(1).upper()`, ASCII) and the match
end. -/
def methodMatch (s : List Char) : Option (List Char × Nat) :=
  methodWords.findSome? (fun w =>
    if startsWithCI w s ∧ 0 < runLen pyIsSpace (s.drop w.length) then
      some (w, w.length + runLen pyIsSpace (s.drop w.length))
    else none)

/-! ### Query-string decoding (`urllib.parse.parse_qsl`) -/

/-- Value of a hexadecimal digit. -/
def hexVal (c : Char) : Option Nat :=
  if '0' ≤ c ∧ c ≤ '9' then some (c.toNat - '0'.toNat)
  else if 'a' ≤ c ∧ c ≤ 'f' then some (c.toNat - 'a'.toNat + 10)
  else if 'A' ≤ c ∧ c ≤ 'F' then some (c.toNat - 'A'.toNat + 10)
  else none

/-- `urllib.parse.unquote_plus` (ASCII fragment): a plus sign becomes a
space and a valid percent escape becomes its byte. -/
def unquotePlus : List Char → List Char
  | [] => []
  | '+' :: rest => ' ' :: unquotePlus rest
  | '%' :: a :: b :: rest =>
      match hexVal a, hexVal b with
      | some x, some y => Char.ofNat (16 * x + y) :: unquotePlus rest
      | _, _ => '%' :: unquotePlus (a :: b :: rest)
  | c :: rest => c :: unquotePlus rest

/-- Split at the first occurrence of `sep` (Python `split(sep, 1)` when
it returns two parts). -/
def splitFirst (sep : Char) : List Char → Option (List Char × List Char)
  | [] => none
  | c :: rest =>
      if c = sep then some ([], rest)
      else (splitFirst sep rest).map (fun r => (c :: r.1, r.2))

/-- `urllib.parse.parse_qsl` with default arguments: fields are split on
ampersands; fields without an equals sign or with an empty value are
dropped; names and values are unquoted. -/
def parse_qsl (qs : List Char) : List (List Char × List Char) :=
  (qs.splitOn '&').filterMap (fun field =>
    match splitFirst '=' field with
    | none => none
    | some (k, v) => if v = [] then none else some (unquotePlus k, unquotePlus v))

/-! ### The parser (`_parse_natural_language_request`) -/

/-- The auth dictionaries the code builds (and those understood by
`_prepare_auth_headers`).  A dictionary whose `type` or required fields
do not fit any of the four recognised shapes is `other`. -/
inductive AuthCfg
  | basic (username password : List Char)
  | bearer (token : List Char)
  | api_key (key : String) (value : List Char)
  | oauth2 (token : List Char)
  | other
deriving DecidableEq, Repr

/-- The result dictionary of `_parse_natural_language_request`.  The
`json` field keeps the raw matched text of a brace substring that
`json.loads` accepted (the loaded value itself is opaque to every
checked property; only the presence of the key matters). -/
structure ParsedRequest where
  method : List Char
  url : List Char
  headers : List (String × List Char)
  params : List (List Char × List Char)
  data : Option (List (List Char × List Char))
  json : Option (List Char)
  auth : Option AuthCfg
  timeout : Nat
  verify_ssl : Bool
deriving DecidableEq, Repr

/-- Left brace, written via its code point to keep it out of string
literals. -/
def lbrace : Char := Char.ofNat 123

/-- Right brace. -/
def rbrace : Char := Char.ofNat 125

/-- `re.search` of the brace-to-brace pattern with DOTALL and a greedy
dot-star: from the first left brace to the last right brace, provided
the latter comes later. -/
def jsonMatch (s : List Char) : Option (List Char) :=
  match s.findIdx? (fun c => c = lbrace), s.reverse.findIdx? (fun c => c = rbrace) with
  | some i, some jr =>
      let j := s.length - 1 - jr
      if i < j then some ((s.drop i).take (j + 1 - i)) else none
  | _, _ => none

/-- The request text after consuming the leading method keyword (and
stripping), or the unchanged text when no method matches. -/
def afterMethod (request : List Char) : List Char :=
  match methodMatch request with
  | some r => pyStrip (request.drop r.2)
  | none => request

/-- `result['method']`: the canonicalised matched keyword, default
`GET`. -/
def methodOf (request : List Char) : List Char :=
  match methodMatch request with
  | some r => r.1
  | none => "GET".data

/-- `request[url_match.end():].strip()`. -/
def remainingAfterUrl (req1 : List Char) (i n : Nat) : List Char :=
  pyStrip (req1.drop (i + n))

/-- `APICaller._parse_natural_language_request`.  `jloads` abstracts
`json.loads` as a success predicate on the matched text.  The context
argument of the Python function is never read and is omitted. -/
def parseNL (jloads : List Char → Bool) (request : List Char) :
    Except String ParsedRequest :=
  let meth := methodOf request
  let req1 := afterMethod request
  match urlSearch req1 with
  | none => .error "Could not find a valid URL in the request"
  | some r =>
      let i := r.1
      let n := r.2
      let url0 := (req1.drop i).take n
      let url1 :=
        if startsWithCS "http://".data url0 || startsWithCS "https://".data url0
        then url0 else "https://".data ++ url0
      let urlParams :=
        if url1.contains '?' then
          match splitFirst '?' url1 with
          | some q => (q.1, dictOf (parse_qsl (q.2.takeWhile (fun c => ¬(c = '#')))))
          | none => (url1, [])
        else (url1, [])
      let remaining := remainingAfterUrl req1 i n
      let auth1 : Option AuthCfg :=
        match apiKeySearch remaining with
        | some tok => some (.api_key "Authorization" ("Bearer ".data ++ tok))
        | none => none
      let auth2 : Option AuthCfg :=
        match basicAuthSearch remaining with
        | some up => some (.basic up.1 up.2)
        | none => auth1
      let json1 : Option (List Char) :=
        match jsonMatch remaining with
        | some m => if jloads m then some m else none
        | none => none
      let form := formFindAll remaining
      let data1 : Option (List (List Char × List Char)) :=
        if form ≠ [] ∧ json1 = none then some (dictOf form) else none
      .ok { method := meth, url := urlParams.1, headers := [], params := urlParams.2,
            data := data1, json := json1, auth := auth2, timeout := 30,
            verify_ssl := true }

/-! ### Parser claims -/

/-- The round-trip input of testable property 3 of the specification. -/
def c2input : List Char := "GET https://api.example.com/users?x=1 token: abc123".data

/-- Counterexample to claim C2: on the round-trip input the parser
leaves `params` empty.  The URL character class `[^\s\?&#]` already
terminates the match at the question mark, so the extracted URL never
contains one and the query-splitting branch never fires; the claimed
`params` value `x ↦ 1` is therefore not produced. -/
theorem C2_counterexample :
    (parseNL (fun _ => false) c2input).toOption.map ParsedRequest.params = some [] ∧
    some ([] : List (List Char × List Char)) ≠ some [("x".data, "1".data)] :=
  ⟨rfl, by decide⟩

/-- Claim C2 as amended: parsing the round-trip input yields method
`GET`, url `https://api.example.com/users` and the bearer-style api_key
auth `Bearer abc123`, but an empty `params` mapping — the pair
`x ↦ 1` instead surfaces as form data, because the URL regex stops at
the question mark and the left-over `?x=1` is picked up by the
`key=value` form scan.  The result does not depend on the `json.loads`
oracle since the input contains no brace. -/
theorem C2_amended_roundtrip (jloads : List Char → Bool) :
    parseNL jloads c2input =
      .ok { method := "GET".data, url := "https://api.example.com/users".data,
            headers := [], params := [], data := some [("x".data, "1".data)],
            json := none,
            auth := some (.api_key "Authorization" "Bearer abc123".data),
            timeout := 30, verify_ssl := true } := rfl

/-- Claim C8: whenever both the api-key pattern and the basic-auth
pattern match the text after the URL, the parsed `auth` is the basic
variant with the matched username and password — the basic-auth
assignment overwrites the earlier api_key one, and the two variants are
distinct, so exactly one survives. -/
theorem C8_basic_auth_overrides (jloads : List Char → Bool) (request : List Char)
    (i n : Nat) (tok u p : List Char)
    (hurl : urlSearch (afterMethod request) = some (i, n))
    (_hapi : apiKeySearch (remainingAfterUrl (afterMethod request) i n) = some tok)
    (hbasic : basicAuthSearch (remainingAfterUrl (afterMethod request) i n) = some (u, p)) :
    (parseNL jloads request).toOption.map ParsedRequest.auth = some (some (.basic u p)) ∧
    some (AuthCfg.basic u p) ≠
      some (AuthCfg.api_key "Authorization" ("Bearer ".data ++ tok)) := by
  refine ⟨?_, by simp⟩
  unfold parseNL
  simp only [hurl, hbasic]
  rfl

theorem C8_witness :
    (parseNL (fun _ => false)
        "GET https://x.com token: abc user: bob pass: s3cr3t".data).toOption.map
        ParsedRequest.auth = some (some (.basic "bob".data "s3cr3t".data)) ∧
    some (AuthCfg.basic "bob".data "s3cr3t".data) ≠
      some (AuthCfg.api_key "Authorization" ("Bearer ".data ++ "abc".data)) :=
  C8_basic_auth_overrides (fun _ => false) _ 0 13 "abc".data "bob".data "s3cr3t".data
    (by decide) (by decide) (by decide)

/-! ### Absence of a URL token is preserved by the method-stripping step

`_parse_natural_language_request` runs the URL search on the text left
after consuming the method keyword and stripping, which is an infix of
the original request; a URL-pattern match inside an infix extends to a
match of the whole text, so a request with no URL-shaped substring
still has none after method stripping. -/

theorem startsWithCI_length_le (p s : List Char) (h : startsWithCI p s = true) :
    p.length ≤ s.length := by
  induction p generalizing s with
  | nil => simp
  | cons a ps ih =>
      cases s with
      | nil => simp [startsWithCI] at h
      | cons c cs =>
          simp only [startsWithCI, Bool.and_eq_true] at h
          simpa using Nat.succ_le_succ (ih cs h.2)

theorem startsWithCI_append (p u v : List Char) (h : startsWithCI p u = true) :
    startsWithCI p (u ++ v) = true := by
  induction p generalizing u with
  | nil => simp [startsWithCI]
  | cons a ps ih =>
      cases u with
      | nil => simp [startsWithCI] at h
      | cons c cs =>
          simp only [startsWithCI, Bool.and_eq_true] at h
          simp only [List.cons_append, startsWithCI, Bool.and_eq_true]
          exact ⟨h.1, ih cs h.2⟩

theorem runLen_pos_append (f : Char → Bool) (u v : List Char) (h : 0 < runLen f u) :
    0 < runLen f (u ++ v) := by
  cases u with
  | nil => simp [runLen] at h
  | cons c cs =>
      by_cases hc : f c
      · simp [runLen, hc]
      · simp [runLen, hc] at h

theorem urlMatchLen_ne_none_iff (s : List Char) :
    urlMatchLen s ≠ none ↔
      ((startsWithCI "https://".data s = true ∧ 0 < runLen urlTokChar (s.drop 8)) ∨
       (startsWithCI "http://".data s = true ∧ 0 < runLen urlTokChar (s.drop 7)) ∨
       (startsWithCI "www.".data s = true ∧ 0 < runLen urlTokChar (s.drop 4))) := by
  unfold urlMatchLen
  split_ifs with h1 h2 h3 <;> simp_all

theorem urlCond_append (u v p : List Char) (k : Nat) (hlen : p.length = k)
    (h : startsWithCI p u = true ∧ 0 < runLen urlTokChar (u.drop k)) :
    startsWithCI p (u ++ v) = true ∧ 0 < runLen urlTokChar ((u ++ v).drop k) := by
  obtain ⟨h1, h2⟩ := h
  have hk : k ≤ u.length := hlen ▸ startsWithCI_length_le p u h1
  refine ⟨startsWithCI_append p u v h1, ?_⟩
  rw [List.drop_append_eq_append_drop, Nat.sub_eq_zero_of_le hk, List.drop_zero]
  exact runLen_pos_append _ _ _ h2

theorem urlMatchLen_append (u v : List Char) (h : urlMatchLen u ≠ none) :
    urlMatchLen (u ++ v) ≠ none := by
  rw [urlMatchLen_ne_none_iff] at h ⊢
  rcases h with h | h | h
  · exact Or.inl (urlCond_append u v _ 8 rfl h)
  · exact Or.inr (Or.inl (urlCond_append u v _ 7 rfl h))
  · exact Or.inr (Or.inr (urlCond_append u v _ 4 rfl h))

theorem urlSearch_none_iff (s : List Char) :
    urlSearch s = none ↔ ∀ i, urlMatchLen (s.drop i) = none := by
  induction s with
  | nil =>
      simp [urlSearch, List.drop_nil]
  | cons c cs ih =>
      constructor
      · intro h i
        cases hm : urlMatchLen (c :: cs) with
        | some n => simp [urlSearch, hm] at h
        | none =>
            cases i with
            | zero => simpa using hm
            | succ j =>
                have hs : urlSearch cs = none := by
                  cases hcs : urlSearch cs with
                  | none => rfl
                  | some r => simp [urlSearch, hm, hcs] at h
                exact (ih.mp hs) j
      · intro h
        have hm : urlMatchLen (c :: cs) = none := h 0
        have hs : urlSearch cs = none := ih.mpr (fun i => h (i + 1))
        simp [urlSearch, hm, hs]

theorem urlMatchLen_within_none (t s : List Char) (h : ∀ j, urlMatchLen (t.drop j) = none)
    (hinf : s <:+: t) : ∀ i, urlMatchLen (s.drop i) = none := by
  intro i
  obtain ⟨pre, post, hpre⟩ := hinf
  by_contra hne
  have h1 : urlMatchLen (s.drop i ++ post.drop (i - s.length)) ≠ none :=
    urlMatchLen_append _ _ hne
  have h2 : t.drop (pre.length + i) = s.drop i ++ post.drop (i - s.length) := by
    rw [← hpre, List.append_assoc, List.drop_append i, List.drop_append_eq_append_drop]
  exact h1 (h2 ▸ h (pre.length + i))

theorem pyStrip_within (t : List Char) : pyStrip t <:+: t := by
  unfold pyStrip
  have h1 : (t.dropWhile pyIsSpace) <:+ t := List.dropWhile_suffix _
  have h2 : ((t.dropWhile pyIsSpace).reverse.dropWhile pyIsSpace) <:+
      (t.dropWhile pyIsSpace).reverse := List.dropWhile_suffix _
  have h3 := List.reverse_prefix.mpr h2
  rw [List.reverse_reverse] at h3
  exact h3.isInfix.trans h1.isInfix

theorem afterMethod_within (request : List Char) : afterMethod request <:+: request := by
  unfold afterMethod
  cases h : methodMatch request with
  | none => exact List.infix_rfl
  | some r =>
      have h1 : pyStrip (request.drop r.2) <:+: request.drop r.2 := pyStrip_within _
      have h2 : request.drop r.2 <:+ request := List.drop_suffix _ _
      exact h1.trans h2.isInfix

theorem parseNL_no_url (jloads : List Char → Bool) (request : List Char)
    (h : urlSearch request = none) :
    parseNL jloads request = .error "Could not find a valid URL in the request" := by
  have h1 : urlSearch (afterMethod request) = none :=
    (urlSearch_none_iff _).mpr
      (urlMatchLen_within_none request _ ((urlSearch_none_iff _).mp h) (afterMethod_within request))
  unfold parseNL
  simp only [h1]

/-! ## HTTP executor (`APICaller.call`) -/

/-- The `HTTPMethod` enum of `api_caller.py`. -/
inductive HTTPMethod
  | GET
  | POST
  | PUT
  | DELETE
  | PATCH
  | HEAD
  | OPTIONS
deriving DecidableEq, Repr

/-- `HTTPMethod(method.upper())`: `none` when the `ValueError` branch
fires. -/
def HTTPMethod.ofChars (s : List Char) : Option HTTPMethod :=
  if s = "GET".data then some .GET
  else if s = "POST".data then some .POST
  else if s = "PUT".data then some .PUT
  else if s = "DELETE".data then some .DELETE
  else if s = "PATCH".data then some .PATCH
  else if s = "HEAD".data then some .HEAD
  else if s = "OPTIONS".data then some .OPTIONS
  else none

/-- The base64 alphabet. -/
def base64Chars : List Char :=
  "ABCDEFGHIJKLMNOPQRSTUVWXYZabcdefghijklmnopqrstuvwxyz0123456789+/".data

/-- Digit of the base64 alphabet. -/
def b64char (n : Nat) : Char := (base64Chars.drop n).headD 'A'

/-- `base64.b64encode` over byte values. -/
def base64Encode : List Nat → List Char
  | [] => []
  | [a] => [b64char (a / 4), b64char (a % 4 * 16), '=', '=']
  | [a, b] => [b64char (a / 4), b64char (a % 4 * 16 + b / 16), b64char (b % 16 * 4), '=']
  | a :: b :: c :: rest =>
      b64char (a / 4) :: b64char (a % 4 * 16 + b / 16) ::
        b64char (b % 16 * 4 + c / 64) :: b64char (c % 64) :: base64Encode rest

/-- `APICaller._prepare_auth_headers`: translate an auth dictionary
into request headers; an unrecognised shape contributes no headers.
Credentials are encoded at their (ASCII) code points. -/
def prepare_auth_headers : AuthCfg → List (String × List Char)
  | .basic u p =>
      [("Authorization",
        "Basic ".data ++ base64Encode ((u ++ ":".data ++ p).map Char.toNat))]
  | .bearer t => [("Authorization", "Bearer ".data ++ t)]
  | .api_key k v => [(k, v)]
  | .oauth2 t => [("Authorization", "Bearer ".data ++ t)]
  | .other => []

/-- A Python request body value (the `data=` argument): a dict or a raw
string. -/
inductive PyBody
  | dict (d : List (List Char × List Char))
  | raw (s : List Char)
deriving DecidableEq, Repr

/-- How the request body is sent, mirroring the `data` / `json_data`
selection in `call`. -/
inductive BodyKind
  | jsonOf (b : PyBody)
  | rawData (b : PyBody)
  | jsonVal (s : List Char)
deriving DecidableEq, Repr

/-- Python `sub in s` on strings: Boolean substring test. -/
def containsSub (sub s : List Char) : Bool :=
  (List.range (s.length + 1)).any (fun i => startsWithCS sub (s.drop i))

/-- `APICaller.default_headers`. -/
def default_headers : List (String × List Char) :=
  [("User-Agent", "MultiAgent-APICaller/1.0".data),
   ("Accept", "application/json".data),
   ("Content-Type", "application/json".data)]

/-- The fully assembled request handed to
`aiohttp.ClientSession.request`. -/
structure PreparedRequest where
  method : HTTPMethod
  url : List Char
  headers : List (String × List Char)
  params : List (List Char × List Char)
  body : Option BodyKind
  timeout : Nat
  allow_redirects : Bool
  verify_ssl : Bool
deriving DecidableEq, Repr

/-- Transport-level failures raised by the underlying request:
`aiohttp.ClientError`, or any other exception (timeouts among them). -/
inductive TransportFailure
  | clientError (msg : String)
  | unexpected (msg : String)
deriving DecidableEq, Repr

/-- The error message each `except` branch of `call` produces. -/
def TransportFailure.describe : TransportFailure → String
  | .clientError m => "API request failed: " ++ m
  | .unexpected m => "Unexpected error: " ++ m

/-- A raw HTTP response as observed by the executor. -/
structure HttpResp where
  status : Int
  headers : List (String × List Char)
  url : List Char
  body : List Char
deriving DecidableEq, Repr

/-- The network, abstracted: a response or a raised failure. -/
abbrev Transport := PreparedRequest → Except TransportFailure HttpResp

/-- The `data` field of a Response Envelope: the raw body, tagged with
whether the declared-JSON parse accepted it (the parsed value itself is
opaque to every checked property). -/
inductive RespData
  | jsonParsed (raw : List Char)
  | text (raw : List Char)
deriving DecidableEq, Repr

/-- A Response Envelope: the result dictionaries of `APICaller.call`
and `call_from_natural_language`.  A key absent from a branch is
`none`; `is_success` is present in every branch. -/
structure Envelope where
  status : Option Int := none
  headers : Option (List (String × List Char)) := none
  url : Option (List Char) := none
  content_type : Option (List Char) := none
  is_success : Bool := false
  data : Option RespData := none
  error : Option String := none
deriving DecidableEq, Repr

/-- Header assembly and body selection of `APICaller.call` up to the
dispatch point: `none` when the method string is not one of the seven
enum members (the `ValueError` branch). -/
def preparedOf (url method : List Char) (headers : List (String × List Char))
    (params : List (List Char × List Char)) (data : Option PyBody)
    (json_data : Option (List Char)) (auth : Option AuthCfg) (timeout : Nat)
    (allow_redirects verify_ssl : Bool) : Option PreparedRequest :=
  (HTTPMethod.ofChars (pyUpper method)).map (fun m =>
    let request_headers := dictUpdate default_headers headers
    let request_headers :=
      match auth with
      | some a => dictUpdate request_headers (prepare_auth_headers a)
      | none => request_headers
    let body : Option BodyKind :=
      match data with
      | some b =>
          if (match b with | .dict _ => true | .raw _ => false) &&
              containsSub "application/json".data (dictGetD request_headers "Content-Type" [])
          then some (.jsonOf b) else some (.rawData b)
      | none =>
          match json_data with
          | some j => some (.jsonVal j)
          | none => none
    { method := m, url := url, headers := request_headers, params := params,
      body := body, timeout := timeout, allow_redirects := allow_redirects,
      verify_ssl := verify_ssl })

/-- `APICaller.call`: dispatch the prepared request and normalise the
response.  `aiohttp.ClientError` and every other exception (including
the `ValueError` of an unknown method, whose message is rendered here
without the quotes of the Python repr) are caught inside the function,
so it is total and yields a status-0 envelope on failure. -/
def APICaller.call (jloads : List Char → Bool) (transport : Transport)
    (url method : List Char) (headers : List (String × List Char))
    (params : List (List Char × List Char)) (data : Option PyBody)
    (json_data : Option (List Char)) (auth : Option AuthCfg) (timeout : Nat)
    (allow_redirects verify_ssl : Bool) : Envelope :=
  match preparedOf url method headers params data json_data auth timeout
      allow_redirects verify_ssl with
  | none =>
      { error := some ("Unexpected error: " ++ String.mk (pyUpper method) ++
          " is not a valid HTTPMethod"),
        status := some 0, is_success := false }
  | some prepared =>
      match transport prepared with
      | .ok resp =>
          let content_type := pyLower (dictGetD resp.headers "Content-Type" [])
          let is_json := containsSub "application/json".data content_type
          { status := some resp.status, headers := some resp.headers,
            url := some resp.url, content_type := some content_type,
            is_success := decide (200 ≤ resp.status ∧ resp.status < 300),
            data := some (if is_json then
                (if jloads resp.body then .jsonParsed resp.body else .text resp.body)
              else .text resp.body) }
      | .error f =>
          { error := some f.describe, status := some 0, is_success := false }

/-- `APICaller.call_from_natural_language`: parse, then call; a parse
failure is caught and reported as an error envelope, with no dispatch
on the transport. -/
def call_from_natural_language (jloads : List Char → Bool) (transport : Transport)
    (request : List Char) : Envelope :=
  match parseNL jloads request with
  | .error msg =>
      { error := some ("Failed to process request: " ++ msg), is_success := false }
  | .ok p =>
      APICaller.call jloads transport p.url p.method p.headers p.params
        (p.data.map .dict) p.json p.auth p.timeout true p.verify_ssl

/-! ## The `POST /api/call` route (`api/routes.py`) -/

/-- The formal parameters of `APICaller.call` (after `self`). -/
def apiCallerCallParamNames : List String :=
  ["url", "method", "headers", "params", "data", "json_data", "auth",
   "timeout", "allow_redirects", "verify_ssl"]

/-- The keyword arguments the `call_api` route passes to
`APICaller.call`. -/
def callApiKeywordArgs : List String :=
  ["url", "method", "headers", "params", "body", "auth"]

/-- `APICallRequest` from `api/models.py`. -/
structure APICallRequest where
  url : List Char
  method : List Char := "GET".data
  headers : Option (List (String × List Char)) := none
  params : Option (List (List Char × List Char)) := none
  body : Option PyBody := none
  auth : Option AuthCfg := none
deriving Repr

/-- Outcome of a FastAPI route handler: a value or an `HTTPException`. -/
inductive RouteResult (α : Type)
  | ok (a : α)
  | httpError (status : Nat) (detail : String)
deriving DecidableEq, Repr

/-- The `POST /api/call` handler.  Python binds the keyword arguments
against the signature of `APICaller.call` before running its body;
since the route passes `body=` and `call` has no such parameter, the
binding raises `TypeError`, which the except clause of the handler
turns into HTTP 500.  The well-bound branch, which would dispatch the
call, is unreachable. -/
def call_api (jloads : List Char → Bool) (transport : Transport)
    (req : APICallRequest) : RouteResult Envelope :=
  if callApiKeywordArgs.all (fun k => apiCallerCallParamNames.contains k) then
    .ok (APICaller.call jloads transport req.url req.method (req.headers.getD [])
      (req.params.getD []) req.body none req.auth 30 true true)
  else
    .httpError 500 "call() got an unexpected keyword argument: body"

/-- Claim C3 is refuted by the code: the route passes the keyword
argument `body`, which is not a parameter of `APICaller.call`, so every
request — however valid — raises `TypeError` at the call site and is
answered with HTTP 500 instead of a Response Envelope. -/
theorem C3_call_api_always_500 :
    ("body" ∈ callApiKeywordArgs ∧ "body" ∉ apiCallerCallParamNames) ∧
    ∀ (jloads : List Char → Bool) (transport : Transport) (req : APICallRequest),
      call_api jloads transport req =
        .httpError 500 "call() got an unexpected keyword argument: body" := by
  have hc : callApiKeywordArgs.all (fun k => apiCallerCallParamNames.contains k) = false := by
    decide
  refine ⟨⟨by decide, by decide⟩, fun jloads transport req => ?_⟩
  unfold call_api
  rw [hc]
  simp

/-- Claim C7: whenever the underlying transport raises, `APICaller.call`
returns an envelope with status 0, `is_success = false` and an error
field describing the failure; the function is total, so nothing
propagates to the caller. -/
theorem C7_transport_failure_envelope (jloads : List Char → Bool) (transport : Transport)
    (url method : List Char) (headers : List (String × List Char))
    (params : List (List Char × List Char)) (data : Option PyBody)
    (json_data : Option (List Char)) (auth : Option AuthCfg) (timeout : Nat)
    (allow_redirects verify_ssl : Bool) (pr : PreparedRequest) (f : TransportFailure)
    (hprep : preparedOf url method headers params data json_data auth timeout
        allow_redirects verify_ssl = some pr)
    (hfail : transport pr = .error f) :
    APICaller.call jloads transport url method headers params data json_data auth
        timeout allow_redirects verify_ssl =
      { error := some f.describe, status := some 0, is_success := false } := by
  unfold APICaller.call
  simp only [hprep, hfail]

theorem C7_witness :
    APICaller.call (fun _ => false) (fun _ => .error (.clientError "boom"))
        "https://x.com".data "GET".data [] [] none none none 30 true true =
      { error := some (TransportFailure.describe (.clientError "boom")),
        status := some 0, is_success := false } :=
  C7_transport_failure_envelope (fun _ => false) (fun _ => .error (.clientError "boom"))
    "https://x.com".data "GET".data [] [] none none none 30 true true
    _ (.clientError "boom") rfl rfl

/-- Claim C9: a request with no URL-shaped substring makes the parser
fail, and `call_from_natural_language` answers with an error envelope
with `is_success = false`; the result is the same for every transport,
so no HTTP call is performed. -/
theorem C9_no_url_no_call (jloads : List Char → Bool) (t1 t2 : Transport)
    (request : List Char) (h : urlSearch request = none) :
    call_from_natural_language jloads t1 request =
      { error := some ("Failed to process request: " ++
          "Could not find a valid URL in the request"),
        is_success := false } ∧
    call_from_natural_language jloads t1 request =
      call_from_natural_language jloads t2 request := by
  have hp := parseNL_no_url jloads request h
  constructor
  · unfold call_from_natural_language
    rw [hp]
  · unfold call_from_natural_language
    rw [hp]

theorem C9_witness :
    call_from_natural_language (fun _ => false) (fun _ => .error (.clientError "a"))
        "call the weather endpoint please".data =
      { error := some ("Failed to process request: " ++
          "Could not find a valid URL in the request"),
        is_success := false } ∧
    call_from_natural_language (fun _ => false) (fun _ => .error (.clientError "a"))
        "call the weather endpoint please".data =
      call_from_natural_language (fun _ => false) (fun _ => .ok ⟨200, [], [], []⟩)
        "call the weather endpoint please".data :=
  C9_no_url_no_call (fun _ => false) _ _ _ (by decide)

/-! ## The orchestrator (`MultiAgent.arun`, `agents/main_agent.py`) -/

/-- An apostrophe, kept out of the literals of this file. -/
def apos : String := ⟨[Char.ofNat 39]⟩

/-- The fixed short-circuit reply text of `arun`. -/
def noInputContent : String :=
  "I didn" ++ apos ++ "t receive any user message to process."

/-- LangChain message wrappers built by the conversion loop. -/
inductive LCMessage
  | human (content : String)
  | ai (content : String)
  | system (content : String)
deriving DecidableEq, Repr

/-- One intermediate step of the agent executor: an action carrying
`tool` and `tool_input`, paired with its result (so the
`len(step) >= 2 and hasattr(step[0], 'tool')` guard always passes). -/
structure ExecStep where
  tool : String
  tool_input : String
  result : String
deriving DecidableEq, Repr

/-- The result dictionary of `AgentExecutor.ainvoke`: an optional
`output` key and an optional `intermediate_steps` key. -/
structure ExecResult where
  output : Option String
  intermediate_steps : Option (List ExecStep)
deriving DecidableEq, Repr

/-- The agent executor, abstracted: input text and prior context give
either a result or a raised exception. -/
abbrev Executor := String → List LCMessage → Except String ExecResult

/-- One iteration of the message-conversion loop of `arun`: user
messages also overwrite `last_user_message`; tool-role messages are
skipped. -/
def collectStep (acc : List LCMessage × Option String) (msg : Message) :
    List LCMessage × Option String :=
  match msg.role with
  | .user => (acc.1 ++ [.human msg.content], some msg.content)
  | .assistant => (acc.1 ++ [.ai msg.content], acc.2)
  | .system => (acc.1 ++ [.system msg.content], acc.2)
  | .tool => acc

/-- The whole conversion loop: LangChain history plus the content of
the latest user-role message. -/
def collectHistory (messages : List Message) : List LCMessage × Option String :=
  messages.foldl collectStep ([], none)

/-- Python truthiness test `not last_user_message` (false for `None`
and for the empty string). -/
def pyFalsyStr : Option String → Bool
  | none => true
  | some s => s == ""

/-- The fixed short-circuit reply of `arun`. -/
def noInputResult : AgentResult :=
  { message := { role := .assistant, content := noInputContent }, tool_calls := none }

/-- `chat_history[:-1] if len(chat_history) > 1 else []`. -/
def contextOf (chat_history : List LCMessage) : List LCMessage :=
  if chat_history.length > 1 then chat_history.dropLast else []

/-- Result post-processing of `arun`: the `output` default, the
tool-call extraction from `intermediate_steps`, and the catch-all
`except` branch. -/
def processExecOutcome : Except String ExecResult → AgentResult
  | .error e =>
      { message :=
          { role := .assistant,
            content := "I encountered an error while processing your request: " ++ e },
        tool_calls := none }
  | .ok result =>
      let response_content := result.output.getD
        "I apologize, but I encountered an error processing your request."
      let tool_calls := (result.intermediate_steps.getD []).map
        (fun st => ToolCallRec.mk st.tool st.tool_input st.result)
      { message := { role := .assistant, content := response_content },
        tool_calls := if tool_calls.isEmpty then none else some tool_calls }

/-- `MultiAgent.arun`. -/
def MultiAgent.arun (execute : Executor) (messages : List Message) : AgentResult :=
  let ch := collectHistory messages
  if pyFalsyStr ch.2 then noInputResult
  else processExecOutcome (execute (ch.2.getD "") (contextOf ch.1))

theorem getLast?_cons_or (a : α) (l : List α) :
    (a :: l).getLast? = l.getLast?.or (some a) := by
  cases l with
  | nil => rfl
  | cons b bs =>
      have hs : (b :: bs).getLast?.isSome := List.getLast?_isSome.mpr (by simp)
      cases h : (b :: bs).getLast? with
      | none => rw [h] at hs; simp at hs
      | some x => simp [show (a :: b :: bs).getLast? = (b :: bs).getLast? from rfl, h]

theorem foldl_collectStep_snd (messages : List Message) :
    ∀ acc : List LCMessage × Option String,
      (messages.foldl collectStep acc).2 =
        ((messages.filterMap
            (fun m => if m.role = MessageRole.user then some m.content else none)).getLast?).or
          acc.2 := by
  induction messages with
  | nil => intro acc; rfl
  | cons m rest ih =>
      intro acc
      rw [List.foldl_cons, ih (collectStep acc m)]
      cases hr : m.role with
      | user =>
          have hstep : (collectStep acc m).2 = some m.content := by
            simp [collectStep, hr]
          rw [hstep, List.filterMap_cons]
          simp only [hr, if_true, getLast?_cons_or]
          cases hl : (rest.filterMap
              (fun m => if m.role = MessageRole.user then some m.content else none)).getLast? with
          | none => rfl
          | some x => rfl
      | assistant =>
          have hstep : (collectStep acc m).2 = acc.2 := by simp [collectStep, hr]
          rw [hstep, List.filterMap_cons]
          simp [hr]
      | system =>
          have hstep : (collectStep acc m).2 = acc.2 := by simp [collectStep, hr]
          rw [hstep, List.filterMap_cons]
          simp [hr]
      | tool =>
          have hstep : collectStep acc m = acc := by simp [collectStep, hr]
          rw [hstep, List.filterMap_cons]
          simp [hr]

/-- `last_user_message` at the end of the loop is the content of the
last user-role message anywhere in the list. -/
theorem collectHistory_snd (messages : List Message) :
    (collectHistory messages).2 =
      (messages.filterMap
        (fun m => if m.role = MessageRole.user then some m.content else none)).getLast? := by
  have h := foldl_collectStep_snd messages ([], none)
  cases hl : (messages.filterMap
      (fun m => if m.role = MessageRole.user then some m.content else none)).getLast? with
  | none => simpa [collectHistory, hl] using h
  | some x => simpa [collectHistory, hl] using h

/-- Claim C10: `arun` short-circuits on the truthiness of the last
user-role content, not on the presence of a user message — when every
user-role message has empty content (in particular when a trailing user
message is empty) it returns the fixed no-input reply with no tool
calls and never consults the executor; and when the last user-role
message (anywhere in the list, not necessarily the final element) has
non-empty content `c`, the executor is invoked with exactly `c` as
input. -/
theorem C10_arun_truthiness :
    (∀ (messages : List Message) (e1 e2 : Executor),
        (∀ m ∈ messages, m.role = MessageRole.user → m.content = "") →
        MultiAgent.arun e1 messages = noInputResult ∧
        MultiAgent.arun e1 messages = MultiAgent.arun e2 messages) ∧
    (∀ (messages : List Message) (e : Executor) (c : String),
        (messages.filterMap
          (fun m => if m.role = MessageRole.user then some m.content else none)).getLast? =
            some c →
        c ≠ "" →
        MultiAgent.arun e messages =
          processExecOutcome (e c (contextOf (collectHistory messages).1))) := by
  constructor
  · intro messages e1 e2 hall
    have hfalsy : pyFalsyStr (collectHistory messages).2 = true := by
      rw [collectHistory_snd]
      cases hl : (messages.filterMap
          (fun m => if m.role = MessageRole.user then some m.content else none)).getLast? with
      | none => rfl
      | some c =>
          have hc := List.mem_of_mem_getLast? hl
          rw [List.mem_filterMap] at hc
          obtain ⟨m, hm, hf⟩ := hc
          by_cases hrole : m.role = MessageRole.user
          · rw [if_pos hrole] at hf
            have : c = "" := by
              have := hall m hm hrole
              simp [← this, ← Option.some_inj.mp hf]
            simp [pyFalsyStr, this]
          · rw [if_neg hrole] at hf
            exact absurd hf (by simp)
    constructor
    · simp [MultiAgent.arun, hfalsy]
    · simp [MultiAgent.arun, hfalsy]
  · intro messages e c hlast hne
    have h2 : (collectHistory messages).2 = some c := by
      rw [collectHistory_snd]; exact hlast
    have hfalsy2 : pyFalsyStr (some c) = false := by
      simp [pyFalsyStr, hne]
    simp [MultiAgent.arun, h2, hfalsy2]

theorem C10_witness :
    (MultiAgent.arun (fun _ _ => .ok ⟨some "ok", none⟩)
        [{ role := .assistant, content := "hi" }, { role := .user, content := "" }] =
          noInputResult ∧
      MultiAgent.arun (fun _ _ => .ok ⟨some "ok", none⟩)
        [{ role := .assistant, content := "hi" }, { role := .user, content := "" }] =
      MultiAgent.arun (fun _ _ => .error "down")
        [{ role := .assistant, content := "hi" }, { role := .user, content := "" }]) ∧
    MultiAgent.arun (fun _ _ => .ok ⟨some "ok", none⟩)
        [{ role := .user, content := "a" }, { role := .user, content := "b" },
         { role := .assistant, content := "z" }] =
      processExecOutcome ((fun (_ : String) (_ : List LCMessage) =>
          (.ok ⟨some "ok", none⟩ : Except String ExecResult)) "b"
        (contextOf (collectHistory
          [{ role := .user, content := "a" }, { role := .user, content := "b" },
           { role := .assistant, content := "z" }]).1)) :=
  ⟨C10_arun_truthiness.1
      [{ role := .assistant, content := "hi" }, { role := .user, content := "" }]
      (fun _ _ => .ok ⟨some "ok", none⟩) (fun _ _ => .error "down") (by decide),
   C10_arun_truthiness.2
      [{ role := .user, content := "a" }, { role := .user, content := "b" },
       { role := .assistant, content := "z" }]
      (fun _ _ => .ok ⟨some "ok", none⟩) "b" (by decide) (by decide)⟩
